import Mathlib

/-!
Verification of the batch-ingestion pipeline (config validation, chunked
extraction, transactional loading, connection management) against a shallow
embedding of the repository's Python source.

Embedded modules:
- `config/extraction_config.py` (FileExtractionConfig.__post_init__)
- `etl/extract.py` (CSVExtractor.extract — a stub in the source; the chunked
  read is modelled from the spec)
- `etl/load.py` (load_customers)
- `database/connection.py` (DatabaseConnection, session_scope,
  get_database_connection, test_connection)
- `models/customer.py`, `models/product.py`, `models/sales.py`
  (persisted-schema constraints: unique keys, NOT NULL columns, foreign keys)
-/

namespace BatchIngestion

/-! ### Rows and chunked extraction -/

/-- A CSV record: one row of cell values. -/
abbrev Row := List String

/-- Modelled from the spec: `CSVExtractor.extract` in `etl/extract.py` is a
stub (its body is `pass`); the spec's extraction contract reads each file in
fixed-size chunks of at most `chunk_size` rows, preserving source row order
within and across chunks. `chunksOfFuel` is the structural worker; the fuel
argument bounds recursion depth and is instantiated with the list length. -/
def chunksOfFuel (n : Nat) : Nat → List Row → List (List Row)
  | _, [] => []
  | 0, l => [l]
  | fuel + 1, x :: xs => ((x :: xs).take n) :: chunksOfFuel n fuel ((x :: xs).drop n)

/-- Split a file's row list into consecutive chunks of at most `n` rows. -/
def chunksOf (n : Nat) (l : List Row) : List (List Row) :=
  chunksOfFuel n l.length l

/-- Modelled from the spec: the extract operation applied to the row contents
of every source file matched by the configured file patterns, producing one
chunk sequence per file, files kept in order. -/
def extract (chunk_size : Nat) (files : List (List Row)) : List (List (List Row)) :=
  files.map (fun rows => chunksOf chunk_size rows)

/-- Concrete five-row sample file used by witness theorems. -/
def sampleFile : List Row := [["a"], ["b"], ["c"], ["d"], ["e"]]

/-! ### Extraction configuration (`config/extraction_config.py`) -/

/-- A filesystem path, as a list of components. -/
abbrev PathName := List String

/-- Parent directory of a path (`Path.parent`). -/
def parentDir (p : PathName) : PathName := p.dropLast

/-- Errors raised by `FileExtractionConfig.__post_init__`: `FileNotFoundError`
when the source path does not exist, `ValueError` for an unsupported file type
or a non-positive chunk size. -/
inductive ConfigError where
  | pathNotFound
  | invalidFileType
  | invalidChunkSize
deriving DecidableEq

/-- The fields of `FileExtractionConfig` that its validation concerns
(`parse_dates` carries no invariant and is omitted). -/
structure FileExtractionConfig where
  source_path : PathName
  file_type : String
  chunk_size : Int
  validate_schema : Bool
  archive_processed_data : Bool
  archive_data_directory : Bool
deriving DecidableEq

/-- Embedding of `FileExtractionConfig.__post_init__`. The ambient filesystem
is the list `fs` of existing paths. Checks run in source order: source path
existence, file type membership in \x7bcsv, parquet\x7d, positive chunk size;
then, only when `archive_processed_data` is true and `archive_data_directory`
is false, the flag is forced to true and `os.makedirs(source_path.parent /
"archive", exist_ok=True)` adds the archive directory to the filesystem. -/
def mkFileExtractionConfig (fs : List PathName) (source_path : PathName)
    (file_type : String) (chunk_size : Int)
    (validate_schema archive_processed_data archive_data_directory : Bool) :
    Except ConfigError (FileExtractionConfig × List PathName) :=
  if source_path ∉ fs then
    .error ConfigError.pathNotFound
  else if file_type ≠ "csv" ∧ file_type ≠ "parquet" then
    .error ConfigError.invalidFileType
  else if chunk_size ≤ 0 then
    .error ConfigError.invalidChunkSize
  else if archive_processed_data = true ∧ archive_data_directory = false then
    .ok (⟨source_path, file_type, chunk_size, validate_schema,
          archive_processed_data, true⟩,
      if (parentDir source_path ++ ["archive"]) ∈ fs then fs
      else fs ++ [parentDir source_path ++ ["archive"]])
  else
    .ok (⟨source_path, file_type, chunk_size, validate_schema,
          archive_processed_data, archive_data_directory⟩, fs)

/-! ### Persisted entities and store constraints
(`models/customer.py`, `models/product.py`, `models/sales.py`) -/

/-- The `customers` table row. Fields with no default in the SQLModel class
(`sale_id`, `first_name`, `last_name`) are NOT NULL columns; they are `Option`
here because `load_customers` constructs entities without setting them, and
the store rejects a commit in which they are still unset. `customer_id` and
`email` carry unique constraints; `sale_id` is a foreign key into
`sales.sale_id`. -/
structure Customer where
  customer_id : String
  sale_id : Option String
  first_name : Option String
  last_name : Option String
  email : String
  phone_number : Option String
  address : Option String
  city : Option String
  is_active : Bool
deriving DecidableEq

/-- The `products` table row: unique `product_id`, unique nullable
`sku_number`, foreign key `sale_id` into `sales.sale_id`. -/
structure Product where
  product_id : String
  sale_id : String
  product_name : String
  sku_number : Option String
deriving DecidableEq

/-- The `sales` table row: unique `sale_id`, foreign keys `customer_id` into
`customers.customer_id` and `product_id` into `products.product_id`. -/
structure Sale where
  sale_id : String
  customer_id : String
  product_id : String
deriving DecidableEq

/-- The persistent store: the three tables. -/
structure Store where
  customers : List Customer
  products : List Product
  sales : List Sale
deriving DecidableEq

/-- The store before any data is loaded. -/
def emptyStore : Store := ⟨[], [], []⟩

/-- Constraint check the store applies when one customer row is inserted:
NOT NULL on `first_name`, `last_name` and `sale_id`, uniqueness of
`customer_id` and `email`, and existence of the referenced sale. -/
def customerInsertOk (s : Store) (c : Customer) : Bool :=
  c.first_name.isSome && c.last_name.isSome
    && s.customers.all (fun c0 => c0.customer_id != c.customer_id && c0.email != c.email)
    && (match c.sale_id with
        | none => false
        | some sid => s.sales.any (fun sl => sl.sale_id == sid))

/-- Constraint check for inserting one product row: uniqueness of
`product_id` and of a set `sku_number`, and existence of the referenced
sale. -/
def productInsertOk (s : Store) (p : Product) : Bool :=
  s.products.all (fun p0 =>
      p0.product_id != p.product_id
        && (p.sku_number == none || p0.sku_number != p.sku_number))
    && s.sales.any (fun sl => sl.sale_id == p.sale_id)

/-- Constraint check for inserting one sale row: uniqueness of `sale_id` and
existence of the referenced customer and product. -/
def saleInsertOk (s : Store) (sl : Sale) : Bool :=
  s.sales.all (fun s0 => s0.sale_id != sl.sale_id)
    && s.customers.any (fun c => c.customer_id == sl.customer_id)
    && s.products.any (fun p => p.product_id == sl.product_id)

/-! ### Transactional sessions (`database/connection.py`) and the loader
(`etl/load.py`) -/

/-- The error a failed commit surfaces: the database integrity error names
the offending row. `appError` stands for any other exception raised inside
a session scope. -/
inductive DbError where
  | integrityError (offending : Customer)
  | appError (msg : String)
deriving DecidableEq

/-- Insert a list of customer rows one by one, as the ORM flushes a session's
pending adds inside one transaction; the first row that fails its constraint
check aborts the whole sequence with an integrity error naming it. -/
def insertCustomersSeq (s : Store) : List Customer → Except DbError Store
  | [] => .ok s
  | c :: cs =>
    if customerInsertOk s c then
      insertCustomersSeq { s with customers := s.customers ++ [c] } cs
    else
      .error (DbError.integrityError c)

/-- A SQLModel session: the committed store it sees plus its pending
(uncommitted) adds. -/
structure DbSession where
  store : Store
  pending : List Customer
deriving DecidableEq

/-- `get_session`: a fresh session over the current store. -/
def newSession (s : Store) : DbSession := ⟨s, []⟩

/-- `session.add(customer)`: stage one row. -/
def DbSession.add (sess : DbSession) (c : Customer) : DbSession :=
  ⟨sess.store, sess.pending ++ [c]⟩

/-- `session.commit()`: apply all pending adds in one transaction; on an
integrity error nothing is persisted and the error propagates. -/
def DbSession.commitTxn (sess : DbSession) : Except DbError DbSession :=
  match insertCustomersSeq sess.store sess.pending with
  | .ok s2 => .ok ⟨s2, []⟩
  | .error e => .error e

/-- `session.rollback()`: discard pending uncommitted adds; already-committed
state is untouched. -/
def DbSession.rollbackTxn (sess : DbSession) : DbSession := ⟨sess.store, []⟩

/-- Outcome of one `session_scope` use: the store after the scope exits, the
exception it re-raised (if any), and whether the session handle was closed. -/
structure ScopeResult where
  store : Store
  err : Option DbError
  closed : Bool
deriving DecidableEq

/-- Embedding of `DatabaseConnection.session_scope`: run the enclosed block
on a fresh session; on normal completion commit, on any exception (from the
block or from the commit) roll back and re-raise; close the session on every
exit path. A block is a function from the session to its final session state
paired with the exception it raised, if any. -/
def session_scope (s : Store) (block : DbSession → DbSession × Option DbError) :
    ScopeResult :=
  let sess1 := (block (newSession s)).1
  match (block (newSession s)).2 with
  | some e => ⟨(sess1.rollbackTxn).store, some e, true⟩
  | none =>
    match sess1.commitTxn with
    | .ok sess2 => ⟨sess2.store, none, true⟩
    | .error e => ⟨(sess1.rollbackTxn).store, some e, true⟩

/-- One row of the customer DataFrame handed to `load_customers`: exactly the
columns the row-to-entity mapping reads (`customer_id`, `name`, `email`,
`phone_number`, `address`, `signup_date`, `is_active`). -/
structure CustomerRow where
  customer_id : String
  name : String
  email : String
  phone_number : Option String
  address : String
  signup_date : Option String
  is_active : Bool
deriving DecidableEq

/-- The row-to-entity mapping of `load_customers`: it passes `name` and
`signup_date`, which are not columns of the `Customer` table model, so they
are dropped, and it never sets the required columns `sale_id`, `first_name`
and `last_name`, which therefore stay unset. -/
def rowToCustomer (r : CustomerRow) : Customer :=
  { customer_id := r.customer_id
    sale_id := none
    first_name := none
    last_name := none
    email := r.email
    phone_number := r.phone_number
    address := some r.address
    city := none
    is_active := r.is_active }

/-- The block `load_customers` runs inside `session_scope`: add the mapped
entity for every DataFrame row, then call `session.commit()`; a commit
failure raises out of the block. -/
def load_customers_block (rows : List CustomerRow) (sess : DbSession) :
    DbSession × Option DbError :=
  let sess1 := rows.foldl (fun acc r => acc.add (rowToCustomer r)) sess
  match sess1.commitTxn with
  | .ok sess2 => (sess2, none)
  | .error e => (sess1, some e)

/-- Embedding of `load_customers`: open a session scope over the current
store and run the loading block in it. -/
def load_customers (s : Store) (rows : List CustomerRow) : ScopeResult :=
  session_scope s (load_customers_block rows)

/-- Concrete DataFrame row used by witness and counterexample theorems. -/
def aliceRow : CustomerRow :=
  ⟨"C1", "Alice Smith", "alice at example dot com", none, "1 Main St", none, true⟩

/-- Second concrete DataFrame row, used by the C2 witness. -/
def bobRow : CustomerRow :=
  ⟨"C2", "Bob Jones", "bob at example dot com", none, "2 Main St", none, true⟩

/-! ### Engine lifecycle and the process-wide connection
(`database/connection.py`) -/

/-- A `DatabaseConnection` object: its identity and its `_db_engine` slot,
which `__init__` leaves at `None` and the `engine` property fills on first
access. Engines are identified by the allocation counter value at their
creation. -/
structure DatabaseConnection where
  cid : Nat
  db_engine : Option Nat
deriving DecidableEq

/-- Process state: allocation counters for connection objects and engines,
and the module-level `_db_connection` global. -/
structure ProcState where
  next_conn : Nat
  next_engine : Nat
  global_conn : Option DatabaseConnection
deriving DecidableEq

/-- `DatabaseConnection.__init__`: allocates a connection object with
`_db_engine = None`; no engine is created. -/
def newDatabaseConnection (st : ProcState) : DatabaseConnection × ProcState :=
  (⟨st.next_conn, none⟩, { st with next_conn := st.next_conn + 1 })

/-- Result of reading the `engine` property: the engine obtained, the
connection afterwards, and the process state afterwards. -/
structure EngineAccess where
  engine_id : Nat
  conn : DatabaseConnection
  state : ProcState
deriving DecidableEq

/-- The `engine` property: create the engine on first access and cache it in
`_db_engine`; later accesses return the cached engine. -/
def engineGet (st : ProcState) (c : DatabaseConnection) : EngineAccess :=
  match c.db_engine with
  | some e => ⟨e, c, st⟩
  | none =>
    ⟨st.next_engine, { c with db_engine := some st.next_engine },
     { st with next_engine := st.next_engine + 1 }⟩

/-- `get_database_connection`: return the module-level `_db_connection`,
creating it on first call. -/
def get_database_connection (st : ProcState) : DatabaseConnection × ProcState :=
  match st.global_conn with
  | some c => (c, st)
  | none =>
    let p := newDatabaseConnection st
    (p.1, { p.2 with global_conn := some p.1 })

/-- The connection acquisition `load_customers` performs: it constructs a
fresh `DatabaseConnection()` directly (not via `get_database_connection`)
and opens a session through that object's engine property. Returns the
engine used and the process state afterwards. -/
def load_customers_acquire (st : ProcState) : Nat × ProcState :=
  let p := newDatabaseConnection st
  let a := engineGet p.2 p.1
  (a.engine_id, a.state)

/-- The process state at interpreter start. -/
def procStart : ProcState := ⟨0, 0, none⟩

/-- Embedding of `DatabaseConnection.test_connection`: when `_db_engine` is
`None` it raises `ValueError`; otherwise it returns whether the `SELECT 1`
connectivity check succeeds (`connect_ok`), catching any exception as
`False`. -/
def test_connection (db_engine : Option Nat) (connect_ok : Bool) :
    Except String Bool :=
  match db_engine with
  | none => .error "Database engine is not initialized"
  | some _ => .ok connect_ok

/-! ### Reachable store states under the persisted schema -/

/-- Store states reachable from the empty store by single-row inserts that
the schema's constraints (as checked by the store on each insert) accept. -/
inductive Reachable : Store → Prop where
  | empty : Reachable emptyStore
  | insCustomer {s : Store} {c : Customer} : Reachable s →
      customerInsertOk s c = true →
      Reachable { s with customers := s.customers ++ [c] }
  | insProduct {s : Store} {p : Product} : Reachable s →
      productInsertOk s p = true →
      Reachable { s with products := s.products ++ [p] }
  | insSale {s : Store} {sl : Sale} : Reachable s →
      saleInsertOk s sl = true →
      Reachable { s with sales := s.sales ++ [sl] }

/-- Referential consistency of a store state: every customer and product
references an existing sale, and every sale references an existing customer
and product. -/
def storeConsistent (s : Store) : Prop :=
  (∀ c ∈ s.customers, ∃ sl ∈ s.sales, c.sale_id = some sl.sale_id)
  ∧ (∀ p ∈ s.products, ∃ sl ∈ s.sales, p.sale_id = sl.sale_id)
  ∧ (∀ sl ∈ s.sales,
      (∃ c ∈ s.customers, c.customer_id = sl.customer_id)
      ∧ (∃ p ∈ s.products, p.product_id = sl.product_id))

end BatchIngestion

namespace BatchIngestion

/-! ### Chunking lemmas -/

theorem chunksOfFuel_join (n : Nat) (hn : 0 < n) :
    ∀ (fuel : Nat) (l : List Row), l.length ≤ fuel →
      (chunksOfFuel n fuel l).flatten = l := by
  intro fuel
  induction fuel with
  | zero =>
    intro l hl
    have : l = [] := by
      cases l with
      | nil => rfl
      | cons x xs => simp at hl
    subst this
    simp [chunksOfFuel]
  | succ fuel ih =>
    intro l hl
    cases l with
    | nil => simp [chunksOfFuel]
    | cons x xs =>
      have hdrop : ((x :: xs).drop n).length ≤ fuel := by
        rw [List.length_drop]
        simp only [List.length_cons] at hl ⊢
        omega
      calc (chunksOfFuel n (fuel + 1) (x :: xs)).flatten
          = (x :: xs).take n ++ (chunksOfFuel n fuel ((x :: xs).drop n)).flatten := by
            simp [chunksOfFuel]
        _ = (x :: xs).take n ++ (x :: xs).drop n := by rw [ih _ hdrop]
        _ = x :: xs := List.take_append_drop n (x :: xs)

theorem chunksOfFuel_sizes (n : Nat) (hn : 0 < n) :
    ∀ (fuel : Nat) (l : List Row), l.length ≤ fuel →
      ∀ c ∈ chunksOfFuel n fuel l, c.length ≤ n := by
  intro fuel
  induction fuel with
  | zero =>
    intro l hl c hc
    have : l = [] := by
      cases l with
      | nil => rfl
      | cons x xs => simp at hl
    subst this
    simp [chunksOfFuel] at hc
  | succ fuel ih =>
    intro l hl c hc
    cases l with
    | nil => simp [chunksOfFuel] at hc
    | cons x xs =>
      simp only [chunksOfFuel, List.mem_cons] at hc
      rcases hc with hc | hc
      · subst hc
        simp
      · have hdrop : ((x :: xs).drop n).length ≤ fuel := by
          rw [List.length_drop]
          simp only [List.length_cons] at hl ⊢
          omega
        exact ih _ hdrop c hc

/-- C1: for every source file matched by the configured file patterns, the
extract operation produces a finite sequence of chunks of at most
`chunk_size` rows each, and concatenating all produced chunks in order
reproduces the file's full row sequence and row count exactly. -/
theorem extract_lossless_order_preserving (n : Nat) (hn : 0 < n)
    (files : List (List Row)) :
    extract n files = files.map (fun rows => chunksOf n rows)
    ∧ ∀ rows ∈ files,
        (∀ c ∈ chunksOf n rows, c.length ≤ n)
        ∧ (chunksOf n rows).flatten = rows
        ∧ ((chunksOf n rows).flatten).length = rows.length := by
  refine ⟨rfl, fun rows _ => ?_⟩
  have hj : (chunksOf n rows).flatten = rows :=
    chunksOfFuel_join n hn rows.length rows le_rfl
  exact ⟨chunksOfFuel_sizes n hn rows.length rows le_rfl, hj, by rw [hj]⟩

/-- Witness for C1 at chunk size two on a concrete five-row file. -/
theorem extract_lossless_witness :
    0 < 2 ∧ (chunksOf 2 sampleFile).flatten = sampleFile :=
  ⟨by decide,
   ((extract_lossless_order_preserving 2 (by decide) [sampleFile]).2 sampleFile
      (by simp)).2.1⟩

/-! ### Configuration validation theorems -/

theorem mkConfig_error_path (fs : List PathName) (sp : PathName) (ft : String)
    (cs : Int) (vs apd adir : Bool) (h1 : sp ∉ fs) :
    mkFileExtractionConfig fs sp ft cs vs apd adir = .error ConfigError.pathNotFound := by
  simp only [mkFileExtractionConfig]
  rw [if_pos h1]

theorem mkConfig_error_fileType (fs : List PathName) (sp : PathName) (ft : String)
    (cs : Int) (vs apd adir : Bool) (h1 : sp ∈ fs)
    (h2 : ft ≠ "csv" ∧ ft ≠ "parquet") :
    mkFileExtractionConfig fs sp ft cs vs apd adir = .error ConfigError.invalidFileType := by
  simp only [mkFileExtractionConfig]
  rw [if_neg (not_not_intro h1), if_pos h2]

theorem mkConfig_error_chunk (fs : List PathName) (sp : PathName) (ft : String)
    (cs : Int) (vs apd adir : Bool) (h1 : sp ∈ fs)
    (h2 : ¬(ft ≠ "csv" ∧ ft ≠ "parquet")) (h3 : cs ≤ 0) :
    mkFileExtractionConfig fs sp ft cs vs apd adir = .error ConfigError.invalidChunkSize := by
  simp only [mkFileExtractionConfig]
  rw [if_neg (not_not_intro h1), if_neg h2, if_pos h3]

theorem mkConfig_ok_makedirs (fs : List PathName) (sp : PathName) (ft : String)
    (cs : Int) (vs apd adir : Bool) (h1 : sp ∈ fs)
    (h2 : ¬(ft ≠ "csv" ∧ ft ≠ "parquet")) (h3 : ¬cs ≤ 0)
    (h4 : apd = true ∧ adir = false) :
    mkFileExtractionConfig fs sp ft cs vs apd adir
      = .ok (⟨sp, ft, cs, vs, apd, true⟩,
          if (parentDir sp ++ ["archive"]) ∈ fs then fs
          else fs ++ [parentDir sp ++ ["archive"]]) := by
  simp only [mkFileExtractionConfig]
  rw [if_neg (not_not_intro h1), if_neg h2, if_neg h3, if_pos h4]

theorem mkConfig_ok_plain (fs : List PathName) (sp : PathName) (ft : String)
    (cs : Int) (vs apd adir : Bool) (h1 : sp ∈ fs)
    (h2 : ¬(ft ≠ "csv" ∧ ft ≠ "parquet")) (h3 : ¬cs ≤ 0)
    (h4 : ¬(apd = true ∧ adir = false)) :
    mkFileExtractionConfig fs sp ft cs vs apd adir
      = .ok (⟨sp, ft, cs, vs, apd, adir⟩, fs) := by
  simp only [mkFileExtractionConfig]
  rw [if_neg (not_not_intro h1), if_neg h2, if_neg h3, if_neg h4]

/-- C4: constructing an extraction config fails exactly when the source path
does not exist, the file type is not csv or parquet, or the chunk size is not
positive; every successful construction yields a config whose source path
exists in the resulting filesystem and whose chunk size is positive. The
validation is pure input checking: no source file content is read. -/
theorem post_init_validates (fs : List PathName) (sp : PathName) (ft : String)
    (cs : Int) (vs apd adir : Bool) :
    ((∃ e, mkFileExtractionConfig fs sp ft cs vs apd adir = .error e)
        ↔ (sp ∉ fs ∨ (ft ≠ "csv" ∧ ft ≠ "parquet") ∨ cs ≤ 0))
    ∧ (∀ cfg fs2, mkFileExtractionConfig fs sp ft cs vs apd adir = .ok (cfg, fs2) →
        cfg.source_path ∈ fs2 ∧ 0 < cfg.chunk_size) := by
  by_cases h1 : sp ∈ fs
  · by_cases h2 : ft ≠ "csv" ∧ ft ≠ "parquet"
    · have hred := mkConfig_error_fileType fs sp ft cs vs apd adir h1 h2
      rw [hred]
      refine ⟨⟨fun _ => Or.inr (Or.inl h2), fun _ => ⟨_, rfl⟩⟩, ?_⟩
      intro cfg fs2 h
      simp at h
    · by_cases h3 : cs ≤ 0
      · have hred := mkConfig_error_chunk fs sp ft cs vs apd adir h1 h2 h3
        rw [hred]
        refine ⟨⟨fun _ => Or.inr (Or.inr h3), fun _ => ⟨_, rfl⟩⟩, ?_⟩
        intro cfg fs2 h
        simp at h
      · have hiff : (sp ∉ fs ∨ (ft ≠ "csv" ∧ ft ≠ "parquet") ∨ cs ≤ 0) ↔ False := by
          constructor
          · rintro (h | h | h)
            · exact h h1
            · exact h2 h
            · exact h3 h
          · intro h
            exact h.elim
        by_cases h4 : apd = true ∧ adir = false
        · have hred := mkConfig_ok_makedirs fs sp ft cs vs apd adir h1 h2 h3 h4
          rw [hred, hiff]
          refine ⟨⟨fun h => ?_, fun h => h.elim⟩, ?_⟩
          · obtain ⟨e, he⟩ := h
            simp at he
          · intro cfg fs2 h
            rw [Except.ok.injEq, Prod.mk.injEq] at h
            obtain ⟨hcfg, hfs⟩ := h
            subst hcfg
            subst hfs
            refine ⟨?_, show (0:Int) < cs by omega⟩
            split_ifs with h5
            · exact h1
            · exact List.mem_append_left _ h1
        · have hred := mkConfig_ok_plain fs sp ft cs vs apd adir h1 h2 h3 h4
          rw [hred, hiff]
          refine ⟨⟨fun h => ?_, fun h => h.elim⟩, ?_⟩
          · obtain ⟨e, he⟩ := h
            simp at he
          · intro cfg fs2 h
            rw [Except.ok.injEq, Prod.mk.injEq] at h
            obtain ⟨hcfg, hfs⟩ := h
            subst hcfg
            subst hfs
            exact ⟨h1, show (0:Int) < cs by omega⟩
  · have hred := mkConfig_error_path fs sp ft cs vs apd adir h1
    rw [hred]
    refine ⟨⟨fun _ => Or.inl h1, fun _ => ⟨_, rfl⟩⟩, ?_⟩
    intro cfg fs2 h
    simp at h

/-- Exercises C4 on a concrete filesystem and argument set. -/
theorem post_init_validates_witness :
    ∀ cfg fs2,
      mkFileExtractionConfig [["data", "customers.csv"]] ["data", "customers.csv"]
        "csv" 5 true true true = .ok (cfg, fs2) →
      cfg.source_path ∈ fs2 ∧ 0 < cfg.chunk_size :=
  (post_init_validates [["data", "customers.csv"]] ["data", "customers.csv"]
    "csv" 5 true true true).2

/-- Counterexample to C5: with `archive_processed_data = true` but
`archive_data_directory` also true (its default), construction succeeds
without creating the archive directory, so the archive directory does not
exist after construction. -/
theorem archive_dir_not_created_cex :
    mkFileExtractionConfig [["data", "customers.csv"]] ["data", "customers.csv"]
        "csv" 5 true true true
      = .ok (⟨["data", "customers.csv"], "csv", 5, true, true, true⟩,
             [["data", "customers.csv"]])
    ∧ (["data", "archive"] : PathName) ∉ [(["data", "customers.csv"] : PathName)] := by
  constructor
  · rfl
  · decide

/-- C5 as amended: when `archive_processed_data` is true and
`archive_data_directory` is false, every successful construction forces
`archive_data_directory` to true and the archive directory (sibling of the
source path, named archive) exists in the filesystem after construction, for
every combination of the other fields. -/
theorem archive_dir_created_when_flag_unset (fs : List PathName) (sp : PathName)
    (ft : String) (cs : Int) (vs : Bool) (cfg : FileExtractionConfig)
    (fs2 : List PathName)
    (h : mkFileExtractionConfig fs sp ft cs vs true false = .ok (cfg, fs2)) :
    cfg.archive_data_directory = true ∧ (parentDir sp ++ ["archive"]) ∈ fs2 := by
  by_cases h1 : sp ∈ fs
  · by_cases h2 : ft ≠ "csv" ∧ ft ≠ "parquet"
    · rw [mkConfig_error_fileType fs sp ft cs vs true false h1 h2] at h
      simp at h
    · by_cases h3 : cs ≤ 0
      · rw [mkConfig_error_chunk fs sp ft cs vs true false h1 h2 h3] at h
        simp at h
      · rw [mkConfig_ok_makedirs fs sp ft cs vs true false h1 h2 h3 ⟨rfl, rfl⟩] at h
        rw [Except.ok.injEq, Prod.mk.injEq] at h
        obtain ⟨hcfg, hfs⟩ := h
        subst hcfg
        subst hfs
        refine ⟨rfl, ?_⟩
        split_ifs with h5
        · exact h5
        · exact List.mem_append_right _ (by simp)
  · rw [mkConfig_error_path fs sp ft cs vs true false h1] at h
    simp at h

/-- Exercises the amended C5 on a concrete filesystem where the archive
directory is absent before construction. -/
theorem archive_dir_created_witness :
    mkFileExtractionConfig [["data", "customers.csv"]] ["data", "customers.csv"]
        "csv" 5 true true false
      = .ok (⟨["data", "customers.csv"], "csv", 5, true, true, true⟩,
             [["data", "customers.csv"], ["data", "archive"]])
    ∧ ((⟨["data", "customers.csv"], "csv", 5, true, true, true⟩ :
          FileExtractionConfig).archive_data_directory = true
        ∧ (parentDir ["data", "customers.csv"] ++ ["archive"]) ∈
            [(["data", "customers.csv"] : PathName), ["data", "archive"]]) :=
  ⟨by rfl,
   archive_dir_created_when_flag_unset [["data", "customers.csv"]]
     ["data", "customers.csv"] "csv" 5 true _ _ (by rfl)⟩

/-! ### Transactional session and loader theorems -/

theorem customerInsertOk_rowToCustomer (s : Store) (r : CustomerRow) :
    customerInsertOk s (rowToCustomer r) = false := by
  simp [customerInsertOk, rowToCustomer]

theorem insertCustomersSeq_head_fail (s : Store) (r : CustomerRow)
    (l : List Customer) :
    insertCustomersSeq s (rowToCustomer r :: l)
      = .error (DbError.integrityError (rowToCustomer r)) := by
  simp [insertCustomersSeq, customerInsertOk_rowToCustomer]

theorem insertCustomersSeq_error_mem (c : Customer) :
    ∀ (l : List Customer) (s : Store),
      insertCustomersSeq s l = .error (DbError.integrityError c) → c ∈ l := by
  intro l
  induction l with
  | nil =>
    intro s h
    simp [insertCustomersSeq] at h
  | cons a l ih =>
    intro s h
    by_cases hok : customerInsertOk s a = true
    · simp only [insertCustomersSeq, if_pos hok] at h
      exact List.mem_cons_of_mem _ (ih _ h)
    · simp only [insertCustomersSeq, if_neg hok, Except.error.injEq,
        DbError.integrityError.injEq] at h
      subst h
      exact List.mem_cons_self _ _

theorem load_block_fold (rows : List CustomerRow) :
    ∀ sess : DbSession,
      rows.foldl (fun acc r => acc.add (rowToCustomer r)) sess
        = ⟨sess.store, sess.pending ++ rows.map rowToCustomer⟩ := by
  induction rows with
  | nil =>
    intro sess
    cases sess
    simp
  | cons r rows ih =>
    intro sess
    rw [List.foldl_cons, ih]
    simp [DbSession.add, List.append_assoc]

theorem load_customers_run (s : Store) (rows : List CustomerRow) (e : DbError)
    (h : insertCustomersSeq s (rows.map rowToCustomer) = .error e) :
    load_customers s rows = ⟨s, some e, true⟩ := by
  have hblock : load_customers_block rows (newSession s)
      = (⟨s, rows.map rowToCustomer⟩, some e) := by
    simp only [load_customers_block, newSession]
    rw [load_block_fold]
    simp [DbSession.commitTxn, h]
  simp [load_customers, session_scope, hblock, DbSession.rollbackTxn]

/-- C3: on normal completion of the enclosed block the pending work is
committed; on any exception inside the scope (raised by the block, or by the
commit itself) the uncommitted work is rolled back — the store stays at the
session's last committed state — and the exception is re-raised; the session
handle is closed on every exit path regardless of outcome. -/
theorem session_scope_txn (s : Store)
    (block : DbSession → DbSession × Option DbError) :
    (session_scope s block).closed = true
    ∧ (∀ e, (block (newSession s)).2 = some e →
        (session_scope s block).store = (block (newSession s)).1.store
        ∧ (session_scope s block).err = some e)
    ∧ ((block (newSession s)).2 = none →
        (∀ s2, insertCustomersSeq (block (newSession s)).1.store
            (block (newSession s)).1.pending = .ok s2 →
          (session_scope s block).store = s2
          ∧ (session_scope s block).err = none)
        ∧ (∀ e, insertCustomersSeq (block (newSession s)).1.store
            (block (newSession s)).1.pending = .error e →
          (session_scope s block).store = (block (newSession s)).1.store
          ∧ (session_scope s block).err = some e)) := by
  refine ⟨?_, ?_, ?_⟩
  · cases hbe : (block (newSession s)).2 with
    | none =>
      cases hins : insertCustomersSeq (block (newSession s)).1.store
          (block (newSession s)).1.pending with
      | ok s2 => simp [session_scope, hbe, DbSession.commitTxn, hins]
      | error e =>
        simp [session_scope, hbe, DbSession.commitTxn, hins, DbSession.rollbackTxn]
    | some e => simp [session_scope, hbe, DbSession.rollbackTxn]
  · intro e he
    simp [session_scope, he, DbSession.rollbackTxn]
  · intro hnone
    constructor
    · intro s2 hins
      simp [session_scope, hnone, DbSession.commitTxn, hins]
    · intro e hins
      simp [session_scope, hnone, DbSession.commitTxn, hins, DbSession.rollbackTxn]

/-- Exercises C3 on a concrete store and block. -/
theorem session_scope_txn_witness :
    (session_scope emptyStore (fun sess => (sess, none))).closed = true :=
  (session_scope_txn emptyStore (fun sess => (sess, none))).1

/-- C2: if sequentially inserting a chunk's mapped rows fails a constraint
check on some row, the whole chunk's transaction is aborted: the store after
`load_customers` equals the store before it (zero rows persisted), and the
surfaced error is the integrity error naming the offending row, which belongs
to the chunk. -/
theorem chunk_load_all_or_nothing (s : Store) (rows : List CustomerRow)
    (c : Customer)
    (h : insertCustomersSeq s (rows.map rowToCustomer)
        = .error (DbError.integrityError c)) :
    (load_customers s rows).store = s
    ∧ (load_customers s rows).err = some (DbError.integrityError c)
    ∧ c ∈ rows.map rowToCustomer := by
  rw [load_customers_run s rows (DbError.integrityError c) h]
  exact ⟨rfl, rfl, insertCustomersSeq_error_mem c _ s h⟩

/-- Exercises C2 on a concrete store and one-row chunk. -/
theorem chunk_load_all_or_nothing_witness :
    insertCustomersSeq emptyStore ([bobRow].map rowToCustomer)
        = .error (DbError.integrityError (rowToCustomer bobRow))
    ∧ (load_customers emptyStore [bobRow]).store = emptyStore :=
  ⟨rfl,
   (chunk_load_all_or_nothing emptyStore [bobRow] (rowToCustomer bobRow) rfl).1⟩

/-- C9: for every store and non-empty customer DataFrame, `load_customers`
fails before committing any row — the store is unchanged and an error is
surfaced — because the row-to-entity mapping leaves the required columns
`sale_id`, `first_name` and `last_name` unset on every mapped row; no input
can ever be loaded through this operation. -/
theorem load_customers_never_loads (s : Store) (rows : List CustomerRow)
    (h : rows ≠ []) :
    (load_customers s rows).store = s
    ∧ (load_customers s rows).err ≠ none
    ∧ ∀ r ∈ rows, (rowToCustomer r).sale_id = none
        ∧ (rowToCustomer r).first_name = none
        ∧ (rowToCustomer r).last_name = none := by
  obtain ⟨r, rest, rfl⟩ := List.exists_cons_of_ne_nil h
  have hins : insertCustomersSeq s ((r :: rest).map rowToCustomer)
      = .error (DbError.integrityError (rowToCustomer r)) := by
    rw [List.map_cons]
    exact insertCustomersSeq_head_fail s r _
  rw [load_customers_run s _ _ hins]
  refine ⟨rfl, by simp, ?_⟩
  intro r0 hr0
  exact ⟨rfl, rfl, rfl⟩

/-- Exercises C9 on a concrete store and one-row DataFrame. -/
theorem load_customers_never_loads_witness :
    ([aliceRow] : List CustomerRow) ≠ []
    ∧ (load_customers emptyStore [aliceRow]).store = emptyStore :=
  ⟨by decide,
   (load_customers_never_loads emptyStore [aliceRow] (by decide)).1⟩

/-- C7 fails on the code: loading the same one-row chunk twice never reaches
the claimed state, because already the first attempt aborts with an integrity
error (the mapped entity lacks the required `sale_id`, `first_name` and
`last_name` columns) and commits nothing; the second attempt fails the same
way, so the store stays empty after both attempts instead of holding the
first attempt's row set. -/
theorem load_twice_both_attempts_fail :
    (load_customers emptyStore [aliceRow]).store = emptyStore
    ∧ (load_customers emptyStore [aliceRow]).err
        = some (DbError.integrityError (rowToCustomer aliceRow))
    ∧ (load_customers ((load_customers emptyStore [aliceRow]).store)
        [aliceRow]).store = emptyStore
    ∧ (load_customers ((load_customers emptyStore [aliceRow]).store)
        [aliceRow]).err
        = some (DbError.integrityError (rowToCustomer aliceRow)) :=
  ⟨rfl, rfl, rfl, rfl⟩

/-! ### Engine lifecycle theorems -/

/-- Counterexample to C6: two successive acquisitions through
`load_customers` (which constructs a fresh `DatabaseConnection` each call)
use two different engine instances, so not every acquisition in the process
goes through one single engine. -/
theorem engine_not_process_singleton_cex :
    (load_customers_acquire procStart).1
      ≠ (load_customers_acquire (load_customers_acquire procStart).2).1 := by
  decide

/-- C6 as amended: the engine is created lazily — connection construction
creates no engine, the first read of the `engine` property creates one and
caches it, a second read returns the cached engine without creating another —
and `get_database_connection` returns one process-wide connection object; but
`load_customers` constructs a fresh `DatabaseConnection` per call, so two of
its acquisitions use distinct engines. -/
theorem engine_lazy_per_instance (st : ProcState) (c : DatabaseConnection)
    (h : c.db_engine = none) :
    ((newDatabaseConnection st).1.db_engine = none
      ∧ (newDatabaseConnection st).2.next_engine = st.next_engine)
    ∧ ((engineGet st c).conn.db_engine = some (engineGet st c).engine_id
      ∧ (engineGet (engineGet st c).state (engineGet st c).conn).engine_id
          = (engineGet st c).engine_id
      ∧ (engineGet (engineGet st c).state (engineGet st c).conn).state
          = (engineGet st c).state)
    ∧ ((get_database_connection st).1
        = (get_database_connection (get_database_connection st).2).1)
    ∧ ((load_customers_acquire st).1
        ≠ (load_customers_acquire (load_customers_acquire st).2).1) := by
  refine ⟨⟨rfl, rfl⟩, ?_, ?_, ?_⟩
  · simp [engineGet, h]
  · cases hg : st.global_conn with
    | some c0 => simp [get_database_connection, hg]
    | none => simp [get_database_connection, hg, newDatabaseConnection]
  · simp [load_customers_acquire, newDatabaseConnection, engineGet]

/-- Exercises the amended C6: a second engine-property read on a concrete
fresh connection returns the engine the first read created. -/
theorem engine_lazy_per_instance_witness :
    (engineGet (engineGet procStart ⟨5, none⟩).state
        (engineGet procStart ⟨5, none⟩).conn).engine_id
      = (engineGet procStart ⟨5, none⟩).engine_id :=
  (engine_lazy_per_instance procStart ⟨5, none⟩ rfl).2.1.2.1

/-- Counterexample to C8: on a connection manager whose engine has not been
initialized (`_db_engine` is `None`, the state every connection starts in),
`test_connection` raises `ValueError` instead of returning a boolean. -/
theorem test_connection_raises_cex :
    test_connection none true = .error "Database engine is not initialized" :=
  rfl

/-- C8 as amended: when the engine is initialized, `test_connection` returns
the boolean outcome of the connectivity check and never raises; when the
engine is not initialized it raises `ValueError`. -/
theorem test_connection_behavior (e : Nat) (ok : Bool) :
    test_connection (some e) ok = .ok ok
    ∧ test_connection none ok = .error "Database engine is not initialized" :=
  ⟨rfl, rfl⟩

/-! ### Circular foreign-key dependency theorems -/

theorem customerInsertOk_empty (c : Customer) :
    customerInsertOk emptyStore c = false := by
  cases hcs : c.sale_id <;> simp [customerInsertOk, emptyStore, hcs]

theorem productInsertOk_empty (p : Product) :
    productInsertOk emptyStore p = false := by
  simp [productInsertOk, emptyStore]

theorem saleInsertOk_empty (sl : Sale) :
    saleInsertOk emptyStore sl = false := by
  simp [saleInsertOk, emptyStore]

theorem reachable_consistent (s : Store) (h : Reachable s) :
    storeConsistent s := by
  induction h with
  | empty =>
    refine ⟨?_, ?_, ?_⟩ <;> intro x hx <;> simp [emptyStore] at hx
  | insCustomer hr hok ih =>
    obtain ⟨ih1, ih2, ih3⟩ := ih
    simp only [customerInsertOk, Bool.and_eq_true] at hok
    obtain ⟨⟨⟨hfn, hln⟩, hall⟩, hfk⟩ := hok
    rename_i s c
    cases hcs : c.sale_id with
    | none =>
      rw [hcs] at hfk
      simp at hfk
    | some sid =>
      rw [hcs] at hfk
      rw [List.any_eq_true] at hfk
      obtain ⟨sl, hslmem, hsleq⟩ := hfk
      have hsid : sl.sale_id = sid := by simpa using hsleq
      refine ⟨?_, ?_, ?_⟩
      · intro c0 hc0
        rcases List.mem_append.mp hc0 with hc0 | hc0
        · exact ih1 c0 hc0
        · have hc0c : c0 = c := by simpa using hc0
          subst hc0c
          exact ⟨sl, hslmem, by rw [hcs, hsid]⟩
      · intro p hp
        exact ih2 p hp
      · intro sl0 hsl0
        obtain ⟨⟨c1, hc1, hc1eq⟩, hp⟩ := ih3 sl0 hsl0
        exact ⟨⟨c1, List.mem_append_left _ hc1, hc1eq⟩, hp⟩
  | insProduct hr hok ih =>
    obtain ⟨ih1, ih2, ih3⟩ := ih
    simp only [productInsertOk, Bool.and_eq_true] at hok
    obtain ⟨hall, hany⟩ := hok
    rw [List.any_eq_true] at hany
    obtain ⟨sl, hslmem, hsleq⟩ := hany
    rename_i s p
    have hsid : sl.sale_id = p.sale_id := by simpa using hsleq
    refine ⟨?_, ?_, ?_⟩
    · intro c0 hc0
      exact ih1 c0 hc0
    · intro p0 hp0
      rcases List.mem_append.mp hp0 with hp0 | hp0
      · exact ih2 p0 hp0
      · have hp0p : p0 = p := by simpa using hp0
        subst hp0p
        exact ⟨sl, hslmem, hsid.symm⟩
    · intro sl0 hsl0
      obtain ⟨hc, ⟨p1, hp1, hp1eq⟩⟩ := ih3 sl0 hsl0
      exact ⟨hc, ⟨p1, List.mem_append_left _ hp1, hp1eq⟩⟩
  | insSale hr hok ih =>
    obtain ⟨ih1, ih2, ih3⟩ := ih
    simp only [saleInsertOk, Bool.and_eq_true] at hok
    obtain ⟨⟨huniq, hcust⟩, hprod⟩ := hok
    rw [List.any_eq_true] at hcust hprod
    obtain ⟨c1, hc1, hc1eq⟩ := hcust
    obtain ⟨p1, hp1, hp1eq⟩ := hprod
    rename_i s sl
    have hc1id : c1.customer_id = sl.customer_id := by simpa using hc1eq
    have hp1id : p1.product_id = sl.product_id := by simpa using hp1eq
    refine ⟨?_, ?_, ?_⟩
    · intro c0 hc0
      obtain ⟨sl1, hsl1, hsl1eq⟩ := ih1 c0 hc0
      exact ⟨sl1, List.mem_append_left _ hsl1, hsl1eq⟩
    · intro p0 hp0
      obtain ⟨sl1, hsl1, hsl1eq⟩ := ih2 p0 hp0
      exact ⟨sl1, List.mem_append_left _ hsl1, hsl1eq⟩
    · intro sl0 hsl0
      rcases List.mem_append.mp hsl0 with hsl0 | hsl0
      · obtain ⟨⟨c2, hc2, hc2eq⟩, ⟨p2, hp2, hp2eq⟩⟩ := ih3 sl0 hsl0
        exact ⟨⟨c2, hc2, hc2eq⟩, ⟨p2, hp2, hp2eq⟩⟩
      · have hsl0sl : sl0 = sl := by simpa using hsl0
        subst hsl0sl
        exact ⟨⟨c1, hc1, hc1id⟩, ⟨p1, hp1, hp1id⟩⟩

/-- C10: the schema's circular foreign keys mean that in every reachable
store state each customer and product row has a matching sale and each sale
row has a matching customer and product; and no single first row — customer,
product or sale — can be inserted into the empty store without violating a
constraint. -/
theorem circular_fk_invariant (s : Store) (h : Reachable s) :
    (∀ c ∈ s.customers, ∃ sl ∈ s.sales, c.sale_id = some sl.sale_id)
    ∧ (∀ p ∈ s.products, ∃ sl ∈ s.sales, p.sale_id = sl.sale_id)
    ∧ (∀ sl ∈ s.sales,
        (∃ c ∈ s.customers, c.customer_id = sl.customer_id)
        ∧ (∃ p ∈ s.products, p.product_id = sl.product_id))
    ∧ (∀ c, customerInsertOk emptyStore c = false)
    ∧ (∀ p, productInsertOk emptyStore p = false)
    ∧ (∀ sl, saleInsertOk emptyStore sl = false) := by
  obtain ⟨h1, h2, h3⟩ := reachable_consistent s h
  exact ⟨h1, h2, h3, customerInsertOk_empty, productInsertOk_empty,
    saleInsertOk_empty⟩

/-- Exercises C10 at the empty store, the one store state reachable without
any insert. -/
theorem circular_fk_invariant_witness :
    Reachable emptyStore ∧ (∀ c, customerInsertOk emptyStore c = false) :=
  ⟨Reachable.empty, (circular_fk_invariant emptyStore Reachable.empty).2.2.2.1⟩

end BatchIngestion
